import Mathlib

/-!
Shallow embedding of the electronic-checkbook repository
(`source/promissory_note.py`, `source/account_holder_device.py`,
`source/bank.py`, `source/signing_protocol.py`).

Modelling conventions:
* Python byte strings are `List Nat`; Python ints are `Nat`/`Int`.
* Fallible Python code (uncaught exceptions) returns `Option`/`Except`,
  with one error constructor per kind of exception raised.
* ECC keys are abstract `Nat` handles.  PEM export is an injective byte
  encoding of the handle; DSS signing is an ideal deterministic signature
  scheme (a signature verifies under exactly the matching key and message).
* `date.today()` is an ambient value in the source; here it is passed as an
  explicit `today` parameter to every operation that consults the clock.
-/

/-- A calendar date, as Python's `datetime.date`.  Python validates dates on
construction; the corresponding predicate here is `MyDate.valid`. -/
structure MyDate where
  year : Nat
  month : Nat
  day : Nat
deriving DecidableEq, Repr

/-- Day number of a civil date, counted from 0000-03-01 (the standard
"days from civil" computation).  Python's `date` subtraction returns exactly
the difference of such day numbers. -/
def MyDate.dayNumber (d : MyDate) : Nat :=
  let y := if d.month ≤ 2 then d.year - 1 else d.year
  let era := y / 400
  let yoe := y % 400
  let mp := if d.month ≤ 2 then d.month + 9 else d.month - 3
  let doy := (153 * mp + 2) / 5 + d.day - 1
  let doe := yoe * 365 + yoe / 4 - yoe / 100 + doy
  era * 146097 + doe

/-- Inverse of `MyDate.dayNumber` (the standard "civil from days"
computation); used to model `date + timedelta(n)`. -/
def MyDate.ofDayNumber (z : Nat) : MyDate :=
  let era := z / 146097
  let doe := z % 146097
  let yoe := (doe - doe / 1460 + doe / 36524 - doe / 146096) / 365
  let y := yoe + era * 400
  let doy := doe - (365 * yoe + yoe / 4 - yoe / 100)
  let mp := (5 * doy + 2) / 153
  let dd := doy - (153 * mp + 2) / 5 + 1
  let mm := if mp < 10 then mp + 3 else mp - 9
  if mm ≤ 2 then ⟨y + 1, mm, dd⟩ else ⟨y, mm, dd⟩

/-- `d + timedelta(n)` for a date `d` and a number of days `n`. -/
def MyDate.addDays (d : MyDate) (n : Nat) : MyDate :=
  MyDate.ofDayNumber (d.dayNumber + n)

/-- `(a - b).days` of Python date subtraction. -/
def MyDate.sub (a b : MyDate) : Int :=
  (a.dayNumber : Int) - (b.dayNumber : Int)

def isLeapYear (y : Nat) : Bool :=
  (y % 4 == 0 && y % 100 != 0) || (y % 400 == 0)

def daysInMonth (y m : Nat) : Nat :=
  if m == 2 then (if isLeapYear y then 29 else 28)
  else if m == 4 || m == 6 || m == 9 || m == 11 then 30
  else 31

/-- Validity of a date, exactly as enforced by Python's `datetime.date`
constructor (`MINYEAR = 1`, `MAXYEAR = 9999`, real calendar days). -/
def MyDate.valid (d : MyDate) : Bool :=
  decide (1 ≤ d.year) && decide (d.year ≤ 9999) &&
  decide (1 ≤ d.month) && decide (d.month ≤ 12) &&
  decide (1 ≤ d.day) && decide (d.day ≤ daysInMonth d.year d.month)

def DAYS_VALID : Nat := 10

def CHECK_EXPIRATION : Nat := 100

/- ## Codec primitives (`promissory_note.py`) -/

/-- `struct.pack('<I', v)`: four little-endian bytes; `struct.error` (here
`none`) for values outside `[0, 2^32)`. -/
def uint32_to_bytes (v : Nat) : Option (List Nat) :=
  if v < 4294967296 then
    some [v % 256, v / 256 % 256, v / 65536 % 256, v / 16777216 % 256]
  else none

/-- The source's `uint64_to_bytes` uses `struct.pack('<L', v)`.  In standard
size mode `'<L'` is a FOUR byte format, so this encodes only values below
`2^32` (four little-endian bytes) and raises `struct.error` for larger
values, despite the docstring advertising a 64-bit codec. -/
def uint64_to_bytes (v : Nat) : Option (List Nat) :=
  if v < 4294967296 then
    some [v % 256, v / 256 % 256, v / 65536 % 256, v / 16777216 % 256]
  else none

/-- `struct.unpack_from('<I', value)` plus the remainder `value[4:]`. -/
def uint32_from_bytes (l : List Nat) : Option (Nat × List Nat) :=
  match l with
  | b0 :: b1 :: b2 :: b3 :: rest =>
    some (b0 + 256 * b1 + 65536 * b2 + 16777216 * b3, rest)
  | _ => none

/-- The source's `uint64_from_bytes` also uses the `'<L'` format: it reads
four bytes, exactly like `uint32_from_bytes`. -/
def uint64_from_bytes (l : List Nat) : Option (Nat × List Nat) :=
  match l with
  | b0 :: b1 :: b2 :: b3 :: rest =>
    some (b0 + 256 * b1 + 65536 * b2 + 16777216 * b3, rest)
  | _ => none

/-- `bytestring_to_bytes`: 4-byte little-endian length prefix, then the raw
bytes. -/
def bytestring_to_bytes (v : List Nat) : Option (List Nat) :=
  (uint32_to_bytes v.length).map (· ++ v)

/-- `bytestring_from_bytes`: read the length prefix, then slice.  Python
slicing truncates silently when the input is short. -/
def bytestring_from_bytes (l : List Nat) : Option (List Nat × List Nat) :=
  (uint32_from_bytes l).map (fun p => (p.2.take p.1, p.2.drop p.1))

/-- `string_to_bytes`: UTF-8 encode, then length-prefix.  All strings the
program serialises (PEM exports, `DDMMYYYY` dates) are ASCII here, so the
UTF-8 step is the identity on the modelled byte lists. -/
def string_to_bytes (v : List Nat) : Option (List Nat) :=
  bytestring_to_bytes v

/-- `string_from_bytes`: un-length-prefix, then UTF-8 decode (identity on the
ASCII byte lists this program produces). -/
def string_from_bytes (l : List Nat) : Option (List Nat × List Nat) :=
  bytestring_from_bytes l

/-- `ECC key → PEM`: modelled as an injective byte encoding of the abstract
key handle (`k` copies of the ASCII byte `'A'`). -/
def pemExport (k : Nat) : List Nat :=
  List.replicate k 65

/-- `ECC.import_key` on a PEM byte string; fails on anything that is not a
well-formed export. -/
def pemImport (l : List Nat) : Option Nat :=
  if l.all (· == 65) then some l.length else none

/-- `d.strftime('%d%m%Y')` as bytes: zero-padded `DDMMYYYY` ASCII digits.
(For years below 1000 glibc's `%Y` is unpadded; the dates this program
builds all have four-digit years, and round-trip results below hypothesise
`1000 ≤ year`.) -/
def dateToBytes (d : MyDate) : List Nat :=
  [48 + d.day / 10, 48 + d.day % 10,
   48 + d.month / 10, 48 + d.month % 10,
   48 + d.year / 1000, 48 + d.year / 100 % 10, 48 + d.year / 10 % 10, 48 + d.year % 10]

def digitVal (b : Nat) : Option Nat :=
  if 48 ≤ b ∧ b ≤ 57 then some (b - 48) else none

/-- `datetime.strptime(s, '%d%m%Y').date()` on the 8-character strings
produced by `strftime`: parse the digits and validate the calendar date
(`strptime` raises `ValueError`, here `none`, on an invalid date). -/
def parseDate (l : List Nat) : Option MyDate :=
  match l with
  | [d1, d2, m1, m2, y1, y2, y3, y4] => do
    let dh ← digitVal d1
    let dl ← digitVal d2
    let mh ← digitVal m1
    let ml ← digitVal m2
    let a ← digitVal y1
    let b ← digitVal y2
    let c ← digitVal y3
    let e ← digitVal y4
    let dt : MyDate := ⟨a * 1000 + b * 100 + c * 10 + e, mh * 10 + ml, dh * 10 + dl⟩
    if dt.valid then some dt else none
  | _ => none

/- ## Crypto (`sign_DSS` / `verify_DSS`) -/

/-- SHA3-256 + ECDSA signing, modelled as an ideal deterministic signature:
the signature is the signer's key handle prepended to the message. -/
def sign_DSS (message : List Nat) (private_key : Nat) : List Nat :=
  private_key :: message

/-- Signature verification: valid iff the signature is the ideal signature of
exactly this message under the key pair of `public_key` (in the model a
public key equals its private handle). -/
def verify_DSS (message signature : List Nat) (public_key : Nat) : Bool :=
  signature == sign_DSS message public_key

/- ## Check -/

/-- `Check`: a bank-signed bearer token.  Equality and hashing in the source
(`__getstate__`-based) are structural over all fields, as here. -/
structure Check where
  bank_id : Nat
  owner_public_key : Nat
  value : Nat
  identifier : Nat
  signature : List Nat
  expiration_date : MyDate
deriving DecidableEq, Repr

/-- `Check.__get_unsigned_bytes`. -/
def Check.get_unsigned_bytes (c : Check) : Option (List Nat) := do
  let b1 ← uint32_to_bytes c.bank_id
  let b2 ← string_to_bytes (pemExport c.owner_public_key)
  let b3 ← uint32_to_bytes c.value
  let b4 ← uint64_to_bytes c.identifier
  let b5 ← string_to_bytes (dateToBytes c.expiration_date)
  some (b1 ++ b2 ++ b3 ++ b4 ++ b5)

/-- `Check.to_bytes`. -/
def Check.to_bytes (c : Check) : Option (List Nat) := do
  let u ← c.get_unsigned_bytes
  let s ← bytestring_to_bytes c.signature
  some (u ++ s)

/-- `Check.from_bytes` (the source returns only the check, dropping any
trailing bytes). -/
def Check.from_bytes (l : List Nat) : Option Check := do
  let (bank_id, l) ← uint32_from_bytes l
  let (pem, l) ← string_from_bytes l
  let owner ← pemImport pem
  let (value, l) ← uint32_from_bytes l
  let (identifier, l) ← uint64_from_bytes l
  let (dstr, _l) ← string_from_bytes l
  let expiration ← parseDate dstr
  let (signature, _) ← bytestring_from_bytes _l
  some ⟨bank_id, owner, value, identifier, signature, expiration⟩

/-- `Check.expired`: `today > expiration_date`. -/
def Check.expired (c : Check) (today : MyDate) : Bool :=
  decide ((today.dayNumber : Int) > (c.expiration_date.dayNumber : Int))

/-- `Check.sign`: set the signature to the bank's signature over the unsigned
bytes (fails only if the unsigned encoding itself raises). -/
def Check.sign (c : Check) (bank_private_key : Nat) : Option Check :=
  (c.get_unsigned_bytes).map (fun u => { c with signature := sign_DSS u bank_private_key })

/-- `Check.is_signature_authentic`. -/
def Check.is_signature_authentic (c : Check) (bank_public_key : Nat) : Option Bool :=
  (c.get_unsigned_bytes).map (fun u => verify_DSS u c.signature bank_public_key)

/- ## PromissoryNoteDraft -/

structure PromissoryNoteDraft where
  seller_public_key : Nat
  identifier : Nat
  value : Nat
  transaction_date : MyDate
  checks : List (Check × Nat)
deriving DecidableEq, Repr

/-- The `(bytestring(check.to_bytes()) ++ uint32(amount))*` tail of a draft
encoding. -/
def encodeDraftChecks : List (Check × Nat) → Option (List Nat)
  | [] => some []
  | (c, amount) :: rest => do
    let cb ← c.to_bytes
    let cb' ← bytestring_to_bytes cb
    let ab ← uint32_to_bytes amount
    let restb ← encodeDraftChecks rest
    some (cb' ++ ab ++ restb)

/-- `PromissoryNoteDraft.to_bytes` (equals its `__get_unsigned_bytes`). -/
def PromissoryNoteDraft.to_bytes (d : PromissoryNoteDraft) : Option (List Nat) := do
  let b1 ← string_to_bytes (pemExport d.seller_public_key)
  let b2 ← uint64_to_bytes d.identifier
  let b3 ← uint32_to_bytes d.value
  let b4 ← string_to_bytes (dateToBytes d.transaction_date)
  let b5 ← encodeDraftChecks d.checks
  some (b1 ++ b2 ++ b3 ++ b4 ++ b5)

/-- The `while draft_bytes:` decoding loop of `PromissoryNoteDraft.from_bytes`.
Every successful source iteration consumes at least eight bytes, so the
input length is enough fuel; the fuel-out case (`none` on nonempty input
with zero fuel) is unreachable from `PromissoryNoteDraft.from_bytes`. -/
def parseDraftChecks : Nat → List Nat → Option (List (Check × Nat))
  | _, [] => some []
  | 0, _ :: _ => none
  | fuel + 1, l => do
    let (cb, l) ← bytestring_from_bytes l
    let (amount, l) ← uint32_from_bytes l
    let c ← Check.from_bytes cb
    let rest ← parseDraftChecks fuel l
    some ((c, amount) :: rest)

/-- `PromissoryNoteDraft.from_bytes` (consumes the whole input). -/
def PromissoryNoteDraft.from_bytes (l : List Nat) : Option PromissoryNoteDraft := do
  let (pem, l) ← string_from_bytes l
  let seller ← pemImport pem
  let (identifier, l) ← uint64_from_bytes l
  let (value, l) ← uint32_from_bytes l
  let (dstr, l) ← string_from_bytes l
  let tdate ← parseDate dstr
  let checks ← parseDraftChecks l.length l
  some ⟨seller, identifier, value, tdate, checks⟩

/-- `PromissoryNoteDraft.total_check_value`: the sum of the annotated
amounts. -/
def PromissoryNoteDraft.total_check_value (d : PromissoryNoteDraft) : Nat :=
  (d.checks.map (·.2)).sum

/-- `PromissoryNoteDraft.is_claimable`:
`(today - transaction_date).days <= DAYS_VALID`. -/
def PromissoryNoteDraft.is_claimable (d : PromissoryNoteDraft) (today : MyDate) : Bool :=
  decide (MyDate.sub today d.transaction_date ≤ (DAYS_VALID : Int))

/-- `PromissoryNoteDraft.affects_monthly_cap`: the transaction date lies in
the current month. -/
def PromissoryNoteDraft.affects_monthly_cap (d : PromissoryNoteDraft) (today : MyDate) : Bool :=
  d.transaction_date.year == today.year && d.transaction_date.month == today.month

/-- `PromissoryNoteDraft.append_check`, with its `assert check.value >= amount`
guard (`none` models the `AssertionError`). -/
def PromissoryNoteDraft.append_check (d : PromissoryNoteDraft) (c : Check) (amount : Nat) :
    Option PromissoryNoteDraft :=
  if amount ≤ c.value then some { d with checks := d.checks ++ [(c, amount)] } else none

/- ## PromissoryNote -/

structure PromissoryNote where
  draft_bytes : List Nat
  seller_signature : List Nat
  buyer_signature : List Nat
deriving DecidableEq, Repr

/-- `PromissoryNote.to_bytes`. -/
def PromissoryNote.to_bytes (n : PromissoryNote) : Option (List Nat) := do
  let b1 ← bytestring_to_bytes n.draft_bytes
  let b2 ← bytestring_to_bytes n.seller_signature
  let b3 ← bytestring_to_bytes n.buyer_signature
  some (b1 ++ b2 ++ b3)

/-- `PromissoryNote.from_bytes` (drops any trailing bytes, as the source
does). -/
def PromissoryNote.from_bytes (l : List Nat) : Option PromissoryNote := do
  let (draft_bytes, l) ← bytestring_from_bytes l
  let (seller_signature, l) ← bytestring_from_bytes l
  let (buyer_signature, _) ← bytestring_from_bytes l
  some ⟨draft_bytes, seller_signature, buyer_signature⟩

/-- `PromissoryNote.draft`: each access decodes `draft_bytes` afresh. -/
def PromissoryNote.draft (n : PromissoryNote) : Option PromissoryNoteDraft :=
  PromissoryNoteDraft.from_bytes n.draft_bytes

/-- `is_seller_signature_authentic` (`none` when the draft does not decode,
which the source surfaces as an uncaught decoding exception). -/
def PromissoryNote.is_seller_signature_authentic (n : PromissoryNote) : Option Bool :=
  n.draft.map (fun d => verify_DSS n.draft_bytes n.seller_signature d.seller_public_key)

/-- `is_buyer_signature_authentic`: verifies against the owner key of the
first embedded check; `none` covers both an undecodable draft and the
`IndexError` on `checks[0]` for an empty check list. -/
def PromissoryNote.is_buyer_signature_authentic (n : PromissoryNote) : Option Bool :=
  n.draft.bind (fun d =>
    (d.checks.head?).map (fun e =>
      verify_DSS (n.draft_bytes ++ n.seller_signature) n.buyer_signature e.1.owner_public_key))

/-- `has_correct_total_check_value`: Σ amounts = value. -/
def PromissoryNote.has_correct_total_check_value (n : PromissoryNote) : Option Bool :=
  n.draft.map (fun d => d.total_check_value == d.value)

/-- `has_correct_check_values`: every entry's amount is at most its check's
face value. -/
def PromissoryNote.has_correct_check_values (n : PromissoryNote) : Option Bool :=
  n.draft.map (fun d => d.checks.all (fun e => decide (e.2 ≤ e.1.value)))

/-- `has_correct_transaction_date`: the draft's transaction date equals
today. -/
def PromissoryNote.has_correct_transaction_date (n : PromissoryNote) (today : MyDate) :
    Option Bool :=
  n.draft.map (fun d => d.transaction_date == today)

/-- `PromissoryNote.sign_with_seller_signature`. -/
def PromissoryNote.sign_with_seller_signature (n : PromissoryNote) (s : List Nat) :
    PromissoryNote :=
  { n with seller_signature := s }

/-- `PromissoryNote.sign_with_buyer_signature`. -/
def PromissoryNote.sign_with_buyer_signature (n : PromissoryNote) (s : List Nat) :
    PromissoryNote :=
  { n with buyer_signature := s }

/- ## signing_protocol.verify_promissory_note -/

/-- The distinct `ValueError`s of `verify_promissory_note`; `malformed` stands
for the exceptions escaping a predicate itself (undecodable draft bytes, or
`IndexError` on a draft with no checks). -/
inductive NoteError where
  | malformed
  | sellerSignature
  | buyerSignature
  | totalCheckValue
  | checkValues
deriving DecidableEq, Repr

/-- `verify_promissory_note`: the four predicate checks, in source order.
The source never consults `has_correct_transaction_date`. -/
def verify_promissory_note (n : PromissoryNote) : Except NoteError Unit :=
  match n.is_seller_signature_authentic with
  | none => .error .malformed
  | some false => .error .sellerSignature
  | some true =>
    match n.is_buyer_signature_authentic with
    | none => .error .malformed
    | some false => .error .buyerSignature
    | some true =>
      match n.has_correct_total_check_value with
      | none => .error .malformed
      | some false => .error .totalCheckValue
      | some true =>
        match n.has_correct_check_values with
        | none => .error .malformed
        | some false => .error .checkValues
        | some true => .ok ()

/- ## AccountHolderDevice (`account_holder_device.py`) -/

/-- The device data store.  `max_overcharge` and `check_punishment` are fixed
at their source defaults (`0.1` and `0.5`); the check-selection code below
inlines them.  `unspent_checks` is the `defaultdict(deque)` of face-value
buckets, as an insertion-ordered association list. -/
structure AccountHolderDevice where
  private_key : Nat
  public_key : Nat
  internet_connection : Bool
  promissory_note_counter : Nat
  unspent_checks : List (Nat × List Check)
  bank_keys : List (Nat × Nat)
deriving DecidableEq, Repr

/-- `self.unspent_checks[v]` read access (a missing key denotes the empty
deque that `defaultdict` would create). -/
def bucketGet (bs : List (Nat × List Check)) (v : Nat) : List Check :=
  ((bs.find? (·.1 == v)).map (·.2)).getD []

/-- Store a deque under a face value, creating the bucket at the end of the
dict's insertion order when absent (as `defaultdict` does). -/
def bucketSet (bs : List (Nat × List Check)) (v : Nat) (dq : List Check) :
    List (Nat × List Check) :=
  match bs with
  | [] => [(v, dq)]
  | (k, q) :: rest => if k = v then (k, dq) :: rest else (k, q) :: bucketSet rest v dq

/-- `self.unspent_checks[v].popleft()`; `none` models the `IndexError` on an
empty deque. -/
def bucketPopleft (bs : List (Nat × List Check)) (v : Nat) :
    Option (Check × List (Nat × List Check)) :=
  match bucketGet bs v with
  | [] => none
  | c :: rest => some (c, bucketSet bs v rest)

/-- The dict keys whose deque is nonempty, in insertion order (the
`if self.unspent_checks[x]` truthiness filter of the source). -/
def bucketKeysNonempty (bs : List (Nat × List Check)) : List Nat :=
  (bs.filter (fun b => !b.2.isEmpty)).map (·.1)

/-- Σ of all face values of all checks in all buckets
(`AccountHolderDevice.total_check_value`). -/
def totalBucketsValue (bs : List (Nat × List Check)) : Nat :=
  (bs.map (fun b => (b.2.map (·.value)).sum)).sum

/-- Number of checks held across all buckets. -/
def bucketsCount (bs : List (Nat × List Check)) : Nat :=
  (bs.map (·.2.length)).sum

/-- `add_unspent_check` with its ownership `assert`. -/
def AccountHolderDevice.add_unspent_check (dev : AccountHolderDevice) (c : Check) :
    Option AccountHolderDevice :=
  if c.owner_public_key = dev.public_key then
    some { dev with unspent_checks := bucketSet dev.unspent_checks c.value (bucketGet dev.unspent_checks c.value ++ [c]) }
  else none

/-- `register_bank`: map the bank id to its public key. -/
def AccountHolderDevice.register_bank (dev : AccountHolderDevice) (bank_id key : Nat) :
    AccountHolderDevice :=
  { dev with bank_keys := (dev.bank_keys.filter (·.1 ≠ bank_id)) ++ [(bank_id, key)] }

/-- `draft_promissory_note`: a fresh draft at today's date, and the counter
incremented. -/
def AccountHolderDevice.draft_promissory_note (dev : AccountHolderDevice) (amount : Nat)
    (today : MyDate) : PromissoryNoteDraft × AccountHolderDevice :=
  (⟨dev.public_key, dev.promissory_note_counter, amount, today, []⟩,
   { dev with promissory_note_counter := dev.promissory_note_counter + 1 })

/-- Errors escaping the device operations. -/
inductive DeviceError where
  | assertionError
  | runtimeErrorDequeMutated
  | valueErrorInsufficient
  | indexError
  | valueErrorMinEmpty
  | trimCrash
  | fuelExhausted
deriving DecidableEq, Repr

/-- `remove_expired_checks` (lines 58-63).  The source iterates a lazy
`filter` over each deque and calls `deque.remove` inside that iteration; as
soon as one expired check is found and removed, the next call into the deque
iterator raises `RuntimeError: deque mutated during iteration` (CPython
checks the mutation counter before the exhaustion check, so this fires even
when the removed check was the last element).  A bucket with no expired
check is traversed without mutation and left unchanged.  The error carries
the partially mutated buckets, matching Python's in-place mutation. -/
def removeExpiredChecks (today : MyDate) :
    List (Nat × List Check) →
    Except (DeviceError × List (Nat × List Check)) (List (Nat × List Check))
  | [] => .ok []
  | (v, dq) :: rest =>
    match dq.find? (fun c => c.expired today) with
    | some c => .error (.runtimeErrorDequeMutated, (v, dq.erase c) :: rest)
    | none =>
      match removeExpiredChecks today rest with
      | .ok rest' => .ok ((v, dq) :: rest')
      | .error (e, rest') => .error (e, (v, dq) :: rest')

/-- Ascending `sorted(...)` (insertion sort; the filtered key values are
distinct, so any stable comparison sort agrees). -/
def insertAsc (x : Nat) : List Nat → List Nat
  | [] => [x]
  | y :: ys => if x ≤ y then x :: y :: ys else y :: insertAsc x ys

def sortAsc (l : List Nat) : List Nat :=
  l.foldr insertAsc []

/-- `sorted(..., reverse=True)`. -/
def insertDesc (x : Nat) : List Nat → List Nat
  | [] => [x]
  | y :: ys => if y ≤ x then x :: y :: ys else y :: insertDesc x ys

def sortDesc (l : List Nat) : List Nat :=
  l.foldr insertDesc []

/-- Python's `min(list, key=lambda x: x[0])`: the first element of minimal
key; `none` on the empty list. -/
def minByFirst {α : Type} : List (Int × α) → Option (Int × α)
  | [] => none
  | x :: xs => some (xs.foldl (fun best y => if y.1 < best.1 then y else best) x)

/-- Python's `min` over a list of naturals (`ValueError`, here `none`, on an
empty list). -/
def listMin : List Nat → Option Nat
  | [] => none
  | x :: xs => some (xs.foldl min x)

/-- Lines 132-170 of `account_holder_device.py`: rescale the candidate face
values by their gcd, build the dynamic-programming table of shortest
check-value sequences, and score the candidates.  Returns the scored list
and `biggest_unit`.  Python computes the two `max_spending` bounds and the
rescaled target with binary floating point (`* 0.1`, true division,
`math.ceil`); the model uses the exact rational values those expressions
denote.  Scores are `(t·g − value) + len·0.5`, exact in floating point, and
are modelled doubled (`2·(t·g − value) + len`), which preserves the
ordering `min` consults. -/
def dpScored (value : Nat) (p0 : Nat) (ptl : List Nat) (cpv : List Nat) :
    List (Int × (List Nat × List Nat)) × Nat :=
  let g := ptl.foldl Nat.gcd p0
  let pv' := (p0 :: ptl).map (· / g)
  let rv' := (value + g - 1) / g
  let pvh := pv'.headD 0
  let pvl := pv'.getLastD 0
  let ms2 :=
    if rv' ≤ 10 * pvh then rv' + min pvh pvl
    else if rv' ≤ 10 * pvl then rv' + (rv' + 9) / 10
    else rv' + pvl
  let m0 : List (Option (List Nat × List Nat)) := List.replicate (ms2 + 1) none
  let minit := pv'.enum.foldl (fun m jv =>
    if jv.2 ≤ ms2 then
      m.set jv.2 (some ([jv.2], cpv.set jv.1 (cpv.getD jv.1 0 - 1)))
    else m) m0
  let mfin := (List.range' (pv'.headD 0) (ms2 + 1 - pv'.headD 0)).foldl (fun m i =>
    pv'.enum.foldl (fun m jv =>
      if jv.2 ≤ i then
        match m.getD (i - jv.2) none with
        | none => m
        | some prev =>
          if 0 < prev.2.getD jv.1 0 then
            match m.getD i none with
            | none => m.set i (some (prev.1 ++ [jv.2], prev.2.set jv.1 (prev.2.getD jv.1 0 - 1)))
            | some cur =>
              if prev.1.length + 1 < cur.1.length then
                m.set i (some (prev.1 ++ [jv.2], prev.2.set jv.1 (prev.2.getD jv.1 0 - 1)))
              else m
          else m
      else m) m) minit
  let scored := (mfin.drop rv').filterMap (fun o => o.map (fun x =>
    (2 * ((x.1.sum * g : Int) - (value : Int)) + (x.1.length : Int), x)))
  (scored, g)

/-- Lines 176-180: for each chosen face value pop the FIFO check of that
value and append `(check, min(remaining, check.value))` to the draft. -/
def dpSelectLoop : List Nat → List (Nat × List Check) → PromissoryNoteDraft → Nat →
    Except DeviceError (List (Nat × List Check) × PromissoryNoteDraft)
  | [], buckets, draft, _ => .ok (buckets, draft)
  | v :: rest, buckets, draft, remaining =>
    match bucketPopleft buckets v with
    | none => .error .indexError
    | some (c, buckets') =>
      let amount := min remaining c.value
      match draft.append_check c amount with
      | none => .error .assertionError
      | some draft' => dpSelectLoop rest buckets' draft' (remaining - amount)

/-- Lines 200-211: the fallback collection loop.  `cur`/`it` model the
`iter`/`next(..., None)` pair.  Each iteration either pops a check or
advances the iterator, so the fuel supplied by the caller is sufficient and
`fuelExhausted` is unreachable. -/
def fallbackLoop : Nat → Nat → Int → Option Nat → List Nat →
    List (Nat × List Check) → List (Check × Nat) →
    Except DeviceError (Nat × List (Nat × List Check) × List (Check × Nat))
  | 0, _, _, _, _, _, _ => .error .fuelExhausted
  | fuel + 1, remaining, pseudo, cur, it, buckets, acc =>
    match cur with
    | none => .ok (remaining, buckets, acc)
    | some v =>
      if remaining = 0 then .ok (remaining, buckets, acc)
      else if bucketGet buckets v ≠ [] ∧ (v : Int) ≤ pseudo then
        match bucketPopleft buckets v with
        | none => .error .indexError
        | some (c, buckets') =>
          let amount := min c.value remaining
          fallbackLoop fuel (remaining - amount) (pseudo - amount) cur it buckets' (acc ++ [(c, amount)])
      else fallbackLoop fuel remaining pseudo it.head? it.tail buckets acc

/-- Lines 221-233: reverse the collected list, attempt the trimming pass,
then append the survivors with the `assert amount <= check.value` guard.
Whenever the trimming pass finds a droppable check the source crashes:
either `checks[0][1] += n[0].value` mutates a tuple (`TypeError`), or
`self.add_unspent_check(n)` receives a `(check, amount)` pair instead of a
`Check` (`AttributeError`); `trimCrash` models both failure modes. -/
def trimAndAppend (value : Nat) (draft : PromissoryNoteDraft)
    (checksR : List (Check × Nat)) : Except DeviceError PromissoryNoteDraft :=
  let extra : Int := ((checksR.map (fun x => (x.1.value : Int))).sum) - (value : Int)
  if checksR.any (fun x => decide ((x.1.value : Int) ≤ extra)) then .error .trimCrash
  else
    checksR.foldlM (fun d p =>
      if p.2 ≤ p.1.value then
        match d.append_check p.1 p.2 with
        | none => .error .assertionError
        | some d' => .ok d'
      else .error .assertionError) draft

/-- Lines 186-233: the fallback selection path (no DP candidate found). -/
def fallbackSelect (value remaining : Nat) (buckets : List (Nat × List Check))
    (draft : PromissoryNoteDraft) :
    Except DeviceError (List (Nat × List Check) × PromissoryNoteDraft) :=
  match sortDesc (bucketKeysNonempty buckets) with
  | [] => .error .indexError
  | cv0 :: cvtl =>
    let g2 := cvtl.foldl Nat.gcd cv0
    let pseudo0 : Int := (g2 : Int) * (((remaining + g2 - 1) / g2 : Nat) : Int)
    match fallbackLoop (bucketsCount buckets + (cv0 :: cvtl).length + 1) remaining pseudo0
        (some cv0) cvtl buckets [] with
    | .error e => .error e
    | .ok (remaining', buckets1, acc) =>
      if remaining' ≠ 0 then
        match listMin ((bucketKeysNonempty buckets1).filter (fun x => remaining' ≤ x)) with
        | none => .error .valueErrorMinEmpty
        | some v =>
          match bucketPopleft buckets1 v with
          | none => .error .indexError
          | some (c, buckets2) =>
            (trimAndAppend value draft ((acc ++ [(c, remaining')]).reverse)).map (fun d => (buckets2, d))
      else
        (trimAndAppend value draft acc.reverse).map (fun d => (buckets1, d))

/-- `AccountHolderDevice.add_payment` (lines 101-234), full control flow.
The `draft.value < 0` branch cannot fire here since values are naturals
(u32 per the data model); the `if m:` test of line 171 is the nonemptiness
of the scored candidate list, i.e. whether `minByFirst` finds an element. -/
def add_payment (today : MyDate) (dev : AccountHolderDevice)
    (draft : PromissoryNoteDraft) :
    Except DeviceError (AccountHolderDevice × PromissoryNoteDraft) :=
  if draft.total_check_value ≠ 0 then .error .assertionError else
  match removeExpiredChecks today dev.unspent_checks with
  | .error e => .error e.1
  | .ok buckets =>
    let dev1 := { dev with unspent_checks := buckets }
    if totalBucketsValue buckets < draft.value then .error .valueErrorInsufficient else
    if draft.value = 0 then
      if draft.total_check_value ≠ draft.value then .error .assertionError
      else .ok (dev1, draft)
    else
      let rv0 := draft.value
      let ms1 := rv0 + (rv0 + 9) / 10
      let pv := sortAsc ((bucketKeysNonempty buckets).filter (· < ms1))
      let cpv := pv.map (fun x => (bucketGet buckets x).length)
      let sg : List (Int × (List Nat × List Nat)) × Nat :=
        match pv with
        | [] => ([], 0)
        | p0 :: ptl => dpScored draft.value p0 ptl cpv
      match minByFirst sg.1 with
      | some best =>
        let optimum := best.2.1.map (· * sg.2)
        match dpSelectLoop optimum buckets draft draft.value with
        | .error e => .error e
        | .ok (buckets2, draft2) =>
          if draft2.total_check_value ≠ draft2.value then .error .assertionError
          else .ok ({ dev1 with unspent_checks := buckets2 }, draft2)
      | none =>
        match fallbackSelect draft.value draft.value buckets draft with
        | .error e => .error e
        | .ok (buckets2, draft2) =>
          if draft2.total_check_value ≠ draft2.value then .error .assertionError
          else .ok ({ dev1 with unspent_checks := buckets2 }, draft2)

/- ## Bank (`bank.py`) -/

/-- The kinds of exception escaping the bank operations. -/
inductive BankError where
  | keyError
  | attributeError
  | assertionError
  | valueErrorCredit
  | valueErrorCap
  | structError
  | indexErrorNoSellerBank
  | typeErrorFormat
  | typeErrorNotSubscriptable
  | fraudException
deriving DecidableEq, Repr

/-- `AccountDeviceData`: the bank's view of one device.  `awaiting_claim` is a
Python set of `PromissoryNoteDraft` objects; since that class defines no
`__eq__`/`__hash__`, set membership there is object identity, and each list
element here stands for one distinct stored object. -/
structure AccountDeviceData where
  public_key : Nat
  check_counter : Nat
  cap : Int
  monthly_cap : Int
  issued_check_value : Nat
  unspent_checks : List Check
  awaiting_claim : List PromissoryNoteDraft
deriving DecidableEq, Repr

/-- `Account`: owner handle, credit line, signed balance, and the device dict
keyed by PEM-exported public key. -/
structure Account where
  owner : Nat
  max_credit : Nat
  balance : Int
  devices : List (List Nat × AccountDeviceData)
deriving DecidableEq, Repr

/-- The static data of one `Bank` object; its accounts live in the global
heap (`GState.heap`) so that Python's shared-object mutation is modelled
faithfully. -/
structure BankObj where
  identifier : Nat
  private_key : Nat
  public_key : Nat
  ahd_to_account : List (List Nat × Nat)
deriving DecidableEq, Repr

/-- The global mutable state: the `signing_protocol` bank registry (in
registration order) and the heap of `Account` objects, addressed by
arbitrary `Nat` object ids. -/
structure GState where
  banks : List BankObj
  heap : List (Nat × Account)
deriving DecidableEq, Repr

/-- Dictionary lookup keyed by PEM strings (first matching key). -/
def lookupA {α : Type} : List (List Nat × α) → List Nat → Option α
  | [], _ => none
  | (k', x) :: rest, k => if k' = k then some x else lookupA rest k

/-- Dictionary write: update the first matching key in place, otherwise append
(Python dict insertion order). -/
def assocSet {α : Type} : List (List Nat × α) → List Nat → α → List (List Nat × α)
  | [], k, x => [(k, x)]
  | (k', x') :: rest, k, x =>
    if k' = k then (k', x) :: rest else (k', x') :: assocSet rest k x

/-- Heap read of an `Account` object (first matching id). -/
def heapGet : List (Nat × Account) → Nat → Option Account
  | [], _ => none
  | (k, a) :: rest, aid => if k = aid then some a else heapGet rest aid

/-- Heap write: mutate the (first) object with the given id in place. -/
def heapSet : List (Nat × Account) → Nat → Account → List (Nat × Account)
  | [], _, _ => []
  | (k, a) :: rest, aid, a' =>
    if k = aid then (k, a') :: rest else (k, a) :: heapSet rest aid a'

/-- `AccountDeviceData.total_unspent_check_value`. -/
def AccountDeviceData.total_unspent_check_value (d : AccountDeviceData) : Nat :=
  (d.unspent_checks.map (·.value)).sum

/-- `AccountDeviceData.total_unclaimed_note_value`. -/
def AccountDeviceData.total_unclaimed_note_value (d : AccountDeviceData) : Nat :=
  (d.awaiting_claim.map (·.total_check_value)).sum

/-- `AccountDeviceData.spend_check`: remove the check from the unspent set and
debit the running cap (`amount` defaults to 0 at one call site). -/
def AccountDeviceData.spend_check (d : AccountDeviceData) (c : Check) (amount : Nat) :
    AccountDeviceData :=
  { d with unspent_checks := d.unspent_checks.erase c, cap := d.cap - amount }

/-- `Account.total_unspent_check_value`. -/
def Account.total_unspent_check_value (a : Account) : Nat :=
  (a.devices.map (·.2.total_unspent_check_value)).sum

/-- `Account.total_unclaimed_note_value`. -/
def Account.total_unclaimed_note_value (a : Account) : Nat :=
  (a.devices.map (·.2.total_unclaimed_note_value)).sum

/-- `Account.remove_expired_notes` (lines 118-122): `for device in
self.devices:` iterates the device dict, which yields its *string keys*, and
then calls `device.remove_expired_notes()` on a `str`: `AttributeError` at
the first key.  Only an account with no devices escapes (empty loop). -/
def Account.remove_expired_notes (a : Account) : Except BankError Unit :=
  if a.devices.isEmpty then .ok () else .error .attributeError

/-- `Account.get_device`. -/
def Account.get_device (a : Account) (pk : Nat) : Option AccountDeviceData :=
  lookupA a.devices (pemExport pk)

/-- `Account.deposit` (its `assert amount >= 0` always holds for naturals). -/
def Account.deposit (a : Account) (amount : Nat) : Account :=
  { a with balance := a.balance + amount }

/-- `Account.withdraw`: no lower-bound check on the balance (the source
deliberately comments the balance assertion out). -/
def Account.withdraw (a : Account) (amount : Nat) : Account :=
  { a with balance := a.balance - amount }

/-- `Bank.has_account`. -/
def bankHasAccount (b : BankObj) (pk : Nat) : Bool :=
  (lookupA b.ahd_to_account (pemExport pk)).isSome

/-- `AccountDeviceData.generate_check` (lines 71-91): cap assertions, check
construction at `today + CHECK_EXPIRATION`, counter/issued updates, bank
signature, insertion into the unspent set. -/
def generate_check (today : MyDate) (st : GState) (self : BankObj) (aid : Nat)
    (account : Account) (data : AccountDeviceData) (pk : Nat) (value : Nat) :
    Except (BankError × GState) (GState × Check) :=
  if ¬((value : Int) ≤ data.cap) then .error (.assertionError, st)
  else if data.cap < (data.issued_check_value : Int) + value then .error (.valueErrorCap, st)
  else
    let c : Check := ⟨self.identifier, pk, value, data.check_counter, [],
      today.addDays CHECK_EXPIRATION⟩
    match c.sign self.private_key with
    | none => .error (.structError, st)
    | some c' =>
      let data' : AccountDeviceData :=
        { data with
          check_counter := data.check_counter + 1,
          issued_check_value := data.issued_check_value + value,
          unspent_checks :=
            if c' ∈ data.unspent_checks then data.unspent_checks
            else data.unspent_checks ++ [c'] }
      let account' := { account with devices := assocSet account.devices (pemExport pk) data' }
      .ok ({ st with heap := heapSet st.heap aid account' }, c')

/-- `Bank.issue_check` (lines 216-232).  Errors carry the global state, since
Python's in-place mutations survive an exception. -/
def issue_check (today : MyDate) (st : GState) (self : BankObj) (pk : Nat) (value : Nat) :
    Except (BankError × GState) (GState × Check) :=
  match lookupA self.ahd_to_account (pemExport pk) with
  | none => .error (.keyError, st)
  | some aid =>
    match heapGet st.heap aid with
    | none => .error (.keyError, st)
    | some account =>
      match account.get_device pk with
      | none => .error (.keyError, st)
      | some data =>
        match account.remove_expired_notes with
        | .error e => .error (e, st)
        | .ok () =>
          if account.balance - (account.total_unclaimed_note_value : Int) + account.max_credit <
              (account.total_unspent_check_value : Int) + value then
            .error (.valueErrorCredit, st)
          else generate_check today st self aid account data pk value

/-- Lines 281-283: `buyer_account.withdraw(amount); seller_account.deposit(amount)`.
The accounts were fetched at the start of the iteration; the re-reads here
model dereferencing those same heap objects (never absent, since `heapSet`
removes no key). -/
def claimTransfer (st1 : GState) (buyerAid sellerAid : Nat) (amount : Nat) :
    Except (BankError × GState) GState :=
  match heapGet st1.heap buyerAid with
  | none => .error (.keyError, st1)
  | some ba =>
    let st2 := { st1 with heap := heapSet st1.heap buyerAid (ba.withdraw amount) }
    match heapGet st2.heap sellerAid with
    | none => .error (.keyError, st2)
    | some sa =>
      .ok { st2 with heap := heapSet st2.heap sellerAid (sa.deposit amount) }

/-- One iteration of the `for check, amount in relevant_checks:` loop of
`Bank.redeem_promissory_note` (lines 247-283).  The
`elif note.draft in buyer_device_data.awaiting_claim` test compares the
freshly decoded draft object by identity (the class defines no `__eq__`), so
it is always false; the chain reduces to: unspent → spend, else not
claimable → pass, else the `raise FraudException(...)` line — whose `%s %s`
format string is applied to a single argument, so evaluating the exception's
arguments raises `TypeError: not enough arguments for format string` and no
`FraudException` is ever constructed. -/
def redeemStep (today : MyDate) (self : BankObj) (draft : PromissoryNoteDraft)
    (st : GState) (entry : Check × Nat) : Except (BankError × GState) GState :=
  let check := entry.1
  let amount := entry.2
  let affects_cap := draft.affects_monthly_cap today
  let is_claimable := draft.is_claimable today
  match lookupA self.ahd_to_account (pemExport check.owner_public_key) with
  | none => .error (.keyError, st)
  | some buyerAid =>
    match heapGet st.heap buyerAid with
    | none => .error (.keyError, st)
    | some buyerAccount =>
      match st.banks.find? (fun b => bankHasAccount b draft.seller_public_key) with
      | none => .error (.indexErrorNoSellerBank, st)
      | some sellerBank =>
        match lookupA sellerBank.ahd_to_account (pemExport draft.seller_public_key) with
        | none => .error (.keyError, st)
        | some sellerAid =>
          match heapGet st.heap sellerAid with
          | none => .error (.keyError, st)
          | some _sellerAccount =>
            match buyerAccount.get_device check.owner_public_key with
            | none => .error (.keyError, st)
            | some dd =>
              let afterBranch : Except (BankError × GState) GState :=
                if check ∈ dd.unspent_checks then
                  let dd' := dd.spend_check check
                    (if affects_cap && is_claimable then amount else 0)
                  let acct' := { buyerAccount with
                    devices := assocSet buyerAccount.devices
                      (pemExport check.owner_public_key) dd' }
                  .ok { st with heap := heapSet st.heap buyerAid acct' }
                else if !is_claimable then .ok st
                else .error (.typeErrorFormat, st)
              match afterBranch with
              | .error e => .error e
              | .ok st1 =>
                if is_claimable then claimTransfer st1 buyerAid sellerAid amount
                else .ok st1

/-- The loop of `Bank.redeem_promissory_note`. -/
def redeemLoop (today : MyDate) (self : BankObj) (draft : PromissoryNoteDraft) :
    GState → List (Check × Nat) → Except (BankError × GState) GState
  | st, [] => .ok st
  | st, e :: rest =>
    match redeemStep today self draft st e with
    | .error er => .error er
    | .ok st' => redeemLoop today self draft st' rest

/-- `Bank.redeem_promissory_note` (lines 234-287).  After the loop the source
evaluates `relevant_checks[0]`, but `relevant_checks` is a `filter` object
and is not subscriptable: every invocation that reaches that line raises
`TypeError`, so the operation never returns normally and the
`awaiting_claim.discard(note.draft)` on the next line is never executed.
The error carries the mutated state. -/
def redeem_promissory_note (today : MyDate) (st : GState) (self : BankObj)
    (note : PromissoryNote) : Except (BankError × GState) GState :=
  match note.is_buyer_signature_authentic with
  | none => .error (.structError, st)
  | some false => .error (.assertionError, st)
  | some true =>
    match note.is_seller_signature_authentic with
    | none => .error (.structError, st)
    | some false => .error (.assertionError, st)
    | some true =>
      match note.draft with
      | none => .error (.structError, st)
      | some draft =>
        let relevant := draft.checks.filter (fun c => c.1.bank_id == self.identifier)
        match redeemLoop today self draft st relevant with
        | .error e => .error e
        | .ok st' => .error (.typeErrorNotSubscriptable, st')

/- ## signing_protocol.transfer -/

/-- The `for bank in filter(...)` body of `transfer`. -/
def transferLoop (today : MyDate) (note : PromissoryNote) :
    List BankObj → GState → Except (BankError × GState) GState
  | [], st => .ok st
  | b :: rest, st =>
    match redeem_promissory_note today st b note with
    | .error e => .error e
    | .ok st' => transferLoop today note rest st'

/-- `signing_protocol.transfer` (lines 54-58): redeem the note at every known
bank whose public key is among the buyer device's registered bank keys.
The source has no connectivity check and no hand-in step, and takes no
seller device. -/
def transfer (today : MyDate) (st : GState) (note : PromissoryNote)
    (buyer_device : AccountHolderDevice) : Except (BankError × GState) GState :=
  transferLoop today note
    (st.banks.filter (fun b => (buyer_device.bank_keys.map (·.2)).contains b.public_key)) st

/-- Σ balances over the whole account heap. -/
def totalBalance (st : GState) : Int :=
  (st.heap.map (·.2.balance)).sum

/- ## Result projections -/

/-- The state after a bank operation, whether it returned or raised (Python's
in-place mutations survive an exception). -/
def exceptState : Except (BankError × GState) GState → GState
  | .ok s => s
  | .error e => e.2

/-- The exception kind of a bank operation, if any. -/
def errOf : Except (BankError × GState) GState → Option BankError
  | .ok _ => none
  | .error e => some e.1

/- ## Concrete fixtures -/

def today0 : MyDate := ⟨2026, 1, 15⟩

/-- A bank-7 check over 5 units for the device with key handle 2. -/
def c5a : Check := ⟨7, 2, 5, 0, [], ⟨2026, 5, 1⟩⟩

def c5b : Check := ⟨7, 2, 5, 1, [], ⟨2026, 5, 1⟩⟩

def c100 : Check := ⟨7, 2, 100, 3, [], ⟨2026, 5, 1⟩⟩

/-- An expired check (expiration before `today0`). -/
def cExp : Check := ⟨7, 2, 100, 4, [], ⟨2026, 1, 1⟩⟩

/-- A buyer device holding two checks of face value 5. -/
def dev0 : AccountHolderDevice := ⟨20, 2, true, 0, [(5, [c5a, c5b])], [(7, 10)]⟩

/-- A concrete draft: seller key 1, value 5, one check entry. -/
def dC : PromissoryNoteDraft := ⟨1, 0, 5, ⟨2026, 1, 15⟩, [(c5a, 5)]⟩

def dBytes : List Nat := (dC.to_bytes).getD []

/-- A fully signed promissory note over `dC` (seller key 1, buyer key 2). -/
def note0 : PromissoryNote := ⟨dBytes, sign_DSS dBytes 1, sign_DSS (dBytes ++ sign_DSS dBytes 1) 2⟩

/-- Buyer-side bank data: the check `c5a` still unspent. -/
def ddB : AccountDeviceData := ⟨2, 1, 1000, 2000, 5, [c5a], []⟩

/-- Buyer-side bank data with `c5a` already spent (double-spend scenario). -/
def ddB' : AccountDeviceData := ⟨2, 1, 1000, 2000, 5, [], []⟩

def ddS : AccountDeviceData := ⟨1, 0, 0, 2000, 0, [], []⟩

def acctB : Account := ⟨100, 0, 1000, [(pemExport 2, ddB)]⟩

def acctB' : Account := ⟨100, 0, 1000, [(pemExport 2, ddB')]⟩

def acctS : Account := ⟨101, 0, 0, [(pemExport 1, ddS)]⟩

def bank7 : BankObj := ⟨7, 10, 10, [(pemExport 2, 0), (pemExport 1, 1)]⟩

/-- Registry with one bank; buyer account at heap id 0, seller at 1. -/
def st0 : GState := ⟨[bank7], [(0, acctB), (1, acctS)]⟩

/-- Same, but the buyer's check already spent. -/
def st0' : GState := ⟨[bank7], [(0, acctB'), (1, acctS)]⟩

/-- A zero-entry draft over 10 units (seller key 1). -/
def d10 : PromissoryNoteDraft := ⟨1, 0, 10, ⟨2026, 1, 15⟩, []⟩

/-- A buyer device holding a single oversized check (forces the fallback
selection path). -/
def devF : AccountHolderDevice := ⟨20, 2, true, 0, [(100, [c100])], [(7, 10)]⟩

/-- A check whose identifier needs more than 32 bits: well formed for the
spec's `u64` identifier field, but unencodable by the source's `'<L'`
packing. -/
def cBig : Check := ⟨7, 2, 5, 4294967296, [], ⟨2026, 5, 1⟩⟩

/-- An offline buyer device with no registered banks. -/
def devOffline : AccountHolderDevice := ⟨20, 2, false, 0, [], []⟩

/-- Variants of `note0` falsifying exactly one verification predicate. -/
def nBadSeller : PromissoryNote := { note0 with seller_signature := [9, 9] }

def nBadBuyer : PromissoryNote := { note0 with buyer_signature := [9, 9] }

/-- Draft whose entry amounts sum to 5 but whose face value is 6. -/
def dTot : PromissoryNoteDraft := ⟨1, 0, 6, ⟨2026, 1, 15⟩, [(c5a, 5)]⟩

def dTotBytes : List Nat := (dTot.to_bytes).getD []

def nBadTotal : PromissoryNote :=
  ⟨dTotBytes, sign_DSS dTotBytes 1, sign_DSS (dTotBytes ++ sign_DSS dTotBytes 1) 2⟩

/-- Draft with a single entry annotated above its check's face value. -/
def dVal : PromissoryNoteDraft := ⟨1, 0, 7, ⟨2026, 1, 15⟩, [(c5a, 7)]⟩

def dValBytes : List Nat := (dVal.to_bytes).getD []

def nBadValues : PromissoryNote :=
  ⟨dValBytes, sign_DSS dValBytes 1, sign_DSS (dValBytes ++ sign_DSS dValBytes 1) 2⟩

/- ## Claim theorems -/

/-- C1: the claim says `Bank.issue_check` succeeds whenever the credit and cap
conditions hold for a registered device.  In the source it cannot: the call
`account.remove_expired_notes()` iterates the device dict (yielding PEM
string keys) and invokes `remove_expired_notes()` on a `str`, raising
`AttributeError` before any check is generated.  Here both spec conditions
hold at the concrete input, yet the operation raises. -/
theorem C1_issue_check_always_raises :
    (acctB.total_unspent_check_value : Int) + 10 ≤
      acctB.balance - (acctB.total_unclaimed_note_value : Int) + acctB.max_credit ∧
    (ddB.issued_check_value : Int) + 10 ≤ ddB.cap ∧
    issue_check today0 st0 bank7 2 10 = .error (.attributeError, st0) := by
  refine ⟨by decide, by decide, rfl⟩

/-- C2: the claim says a redeemable note is settled and its draft removed from
`awaiting_claim`.  In the source the transfers do happen, but the epilogue
`relevant_checks[0]` subscripts a `filter` object and raises `TypeError`, so
the operation never completes and the draft is never discarded.  At this
concrete claimable note: buyer balance 1000 → 995, seller 0 → 5, error
`TypeError`, `awaiting_claim` untouched. -/
theorem C2_redeem_never_completes :
    errOf (redeem_promissory_note today0 st0 bank7 note0) = some .typeErrorNotSubscriptable ∧
    (heapGet (exceptState (redeem_promissory_note today0 st0 bank7 note0)).heap 0).map (·.balance) = some 995 ∧
    (heapGet (exceptState (redeem_promissory_note today0 st0 bank7 note0)).heap 1).map (·.balance) = some 5 ∧
    ((heapGet (exceptState (redeem_promissory_note today0 st0 bank7 note0)).heap 0).bind
      (fun a => a.get_device 2)).map (·.awaiting_claim) = some [] := by
  refine ⟨by decide, by decide, by decide, by decide⟩

/-- C3: the claim says the double-spend scenario raises the Fraud error.  The
source does reach the `raise FraudException(...)` line (check not unspent,
draft not awaiting, still claimable), but the exception's message applies a
two-placeholder `%` format string to a single argument, so `TypeError: not
enough arguments for format string` is raised instead and no
`FraudException` is ever constructed.  The state is left unmutated. -/
theorem C3_double_spend_raises_TypeError_not_Fraud :
    (c5a ∈ ddB'.unspent_checks) = False ∧
    dC.is_claimable today0 = true ∧
    redeem_promissory_note today0 st0' bank7 note0 = .error (.typeErrorFormat, st0') := by
  refine ⟨by simp [ddB'], by decide, rfl⟩

/-- C4: the claim says the u64 codec emits exactly 8 little-endian bytes and
round-trips all values below `2^64`.  The source packs with `'<L'`, a
4-byte format: the output is 4 bytes and any value at or above `2^32`
raises `struct.error`. -/
theorem C4_uint64_is_actually_4_bytes :
    uint64_to_bytes 4294967296 = none ∧
    (uint64_to_bytes 7).map List.length = some 4 ∧
    uint64_from_bytes [7, 0, 0, 0, 9, 9] = some (7, [9, 9]) := by
  refine ⟨by decide, by decide, by decide⟩

/-- C5 counterexample: the claim says `transfer` raises the Offline error
whenever the buyer device is offline.  Here the buyer is offline and
`transfer` completes normally (the source has no connectivity check at
all). -/
theorem C5_counterexample_offline_no_error :
    devOffline.internet_connection = false ∧
    transfer today0 ⟨[], []⟩ note0 devOffline = .ok ⟨[], []⟩ := by
  refine ⟨by decide, rfl⟩

/-- C5 (amended): `transfer(note, buyer_device)` takes no seller device and
never consults connectivity — its result is invariant under toggling the
buyer's online flag (so no Offline error exists) — and when the buyer has no
registered bank keys it visits no bank and returns the state unchanged.
(The banks it does visit are exactly those whose public key occurs in
`buyer_device.bank_keys`, per the definition of `transfer`; there is no
hand-in step.) -/
theorem C5_transfer_ignores_connectivity (today : MyDate) (st : GState)
    (note : PromissoryNote) (dev : AccountHolderDevice) (b : Bool) :
    transfer today st note { dev with internet_connection := b } =
      transfer today st note dev ∧
    (dev.bank_keys = [] → transfer today st note dev = .ok st) := by
  constructor
  · rfl
  · intro h
    have hf : st.banks.filter
        (fun bk => (dev.bank_keys.map (·.2)).contains bk.public_key) = [] := by
      rw [h]
      simp
    show transferLoop today note
      (st.banks.filter (fun bk => (dev.bank_keys.map (·.2)).contains bk.public_key)) st = .ok st
    rw [hf]
    rfl

/-- C5 witness: the amended theorem applied at a concrete offline device with
no bank keys. -/
theorem C5_witness :
    transfer today0 ⟨[], []⟩ note0 { devOffline with internet_connection := true } =
      transfer today0 ⟨[], []⟩ note0 devOffline ∧
    transfer today0 ⟨[], []⟩ note0 devOffline = .ok ⟨[], []⟩ :=
  ⟨(C5_transfer_ignores_connectivity today0 ⟨[], []⟩ note0 devOffline true).1,
   (C5_transfer_ignores_connectivity today0 ⟨[], []⟩ note0 devOffline true).2 rfl⟩

/-- C6 counterexample: the claim says `verify_promissory_note` returns
normally only when the transaction-date predicate (among others) holds.
Here is a note whose draft's transaction date differs from today, yet
verification returns normally: the source never consults
`has_correct_transaction_date`. -/
theorem C6_counterexample_date_not_checked :
    note0.has_correct_transaction_date ⟨2026, 2, 2⟩ = some false ∧
    verify_promissory_note note0 = .ok () := by
  refine ⟨by decide, rfl⟩

/-- C6 (amended): `verify_promissory_note` checks exactly four predicates —
seller-signature authenticity, buyer-signature authenticity, total check
value, per-check values — raising a distinct error for the first that fails
(in that order), and returns normally if and only if all four hold.  The
transaction-date predicate is never consulted.  (`some true` states that the
predicate itself evaluated without raising and holds.) -/
theorem C6_verify_checks_exactly_four (n : PromissoryNote) :
    (verify_promissory_note n = .ok () ↔
      (n.is_seller_signature_authentic = some true ∧
       n.is_buyer_signature_authentic = some true ∧
       n.has_correct_total_check_value = some true ∧
       n.has_correct_check_values = some true)) ∧
    (n.is_seller_signature_authentic = some false →
      verify_promissory_note n = .error .sellerSignature) ∧
    (n.is_seller_signature_authentic = some true →
     n.is_buyer_signature_authentic = some false →
      verify_promissory_note n = .error .buyerSignature) ∧
    (n.is_seller_signature_authentic = some true →
     n.is_buyer_signature_authentic = some true →
     n.has_correct_total_check_value = some false →
      verify_promissory_note n = .error .totalCheckValue) ∧
    (n.is_seller_signature_authentic = some true →
     n.is_buyer_signature_authentic = some true →
     n.has_correct_total_check_value = some true →
     n.has_correct_check_values = some false →
      verify_promissory_note n = .error .checkValues) := by
  cases hs : n.is_seller_signature_authentic with
  | none => simp [verify_promissory_note, hs]
  | some bs =>
    cases bs
    · simp [verify_promissory_note, hs]
    · cases hb : n.is_buyer_signature_authentic with
      | none => simp [verify_promissory_note, hs, hb]
      | some bb =>
        cases bb
        · simp [verify_promissory_note, hs, hb]
        · cases ht : n.has_correct_total_check_value with
          | none => simp [verify_promissory_note, hs, hb, ht]
          | some bt =>
            cases bt
            · simp [verify_promissory_note, hs, hb, ht]
            · cases hv : n.has_correct_check_values with
              | none => simp [verify_promissory_note, hs, hb, ht, hv]
              | some bv =>
                cases bv
                · simp [verify_promissory_note, hs, hb, ht, hv]
                · simp [verify_promissory_note, hs, hb, ht, hv]

/-- C6 witness: the amended theorem applied at five concrete notes, one per
outcome. -/
theorem C6_witness :
    verify_promissory_note note0 = .ok () ∧
    verify_promissory_note nBadSeller = .error .sellerSignature ∧
    verify_promissory_note nBadBuyer = .error .buyerSignature ∧
    verify_promissory_note nBadTotal = .error .totalCheckValue ∧
    verify_promissory_note nBadValues = .error .checkValues :=
  ⟨(C6_verify_checks_exactly_four note0).1.mpr ⟨by decide, by decide, by decide, by decide⟩,
   (C6_verify_checks_exactly_four nBadSeller).2.1 (by decide),
   (C6_verify_checks_exactly_four nBadBuyer).2.2.1 (by decide) (by decide),
   (C6_verify_checks_exactly_four nBadTotal).2.2.2.1 (by decide) (by decide) (by decide),
   (C6_verify_checks_exactly_four nBadValues).2.2.2.2 (by decide) (by decide) (by decide) (by decide)⟩

/-- Helper: a device with no expired check passes `remove_expired_checks`
untouched (every lazy `filter` finds nothing, so no deque is mutated). -/
theorem removeExpired_ok_of_none (today : MyDate) (bs : List (Nat × List Check))
    (h : ∀ b ∈ bs, ∀ c ∈ b.2, c.expired today = false) :
    removeExpiredChecks today bs = .ok bs := by
  induction bs with
  | nil => rfl
  | cons hd tl ih =>
    obtain ⟨v, dq⟩ := hd
    have hdq : dq.find? (fun c => c.expired today) = none := by
      rw [List.find?_eq_none]
      intro c hc
      simpa using h (v, dq) (by simp) c hc
    have htl := ih (fun b hb c hc => h b (by simp [hb]) c hc)
    simp [removeExpiredChecks, hdq, htl]

/-- Helper: as soon as some bucket holds an expired check,
`remove_expired_checks` raises `RuntimeError` (deque mutated during
iteration). -/
theorem removeExpired_err_of_some (today : MyDate) (bs : List (Nat × List Check))
    (h : ∃ b ∈ bs, ∃ c ∈ b.2, c.expired today = true) :
    ∃ bs', removeExpiredChecks today bs = .error (.runtimeErrorDequeMutated, bs') := by
  induction bs with
  | nil =>
    obtain ⟨b, hb, -⟩ := h
    cases hb
  | cons hd tl ih =>
    obtain ⟨v, dq⟩ := hd
    cases hfind : dq.find? (fun c => c.expired today) with
    | some c' =>
      exact ⟨(v, dq.erase c') :: tl, by simp [removeExpiredChecks, hfind]⟩
    | none =>
      obtain ⟨b, hb, c, hc, hexp⟩ := h
      rcases List.mem_cons.mp hb with rfl | hbtl
      · exfalso
        have := List.find?_eq_none.mp hfind c hc
        simp [hexp] at this
      · obtain ⟨tl', htl'⟩ := ih ⟨b, hbtl, c, hc, hexp⟩
        exact ⟨(v, dq) :: tl', by simp [removeExpiredChecks, hfind, htl']⟩

/-- C10: `remove_expired_checks` returns normally only on a device with no
expired check — if any face-value bucket holds one, the lazy `filter` plus
in-loop `deque.remove` raises `RuntimeError: deque mutated during
iteration` instead of completing the removal — and when no check is expired
every bucket is left unchanged.  The third conjunct records that
`add_payment`, which invokes it first, propagates that `RuntimeError`. -/
theorem C10_remove_expired_checks (today : MyDate) (bs : List (Nat × List Check)) :
    ((∀ b ∈ bs, ∀ c ∈ b.2, c.expired today = false) →
      removeExpiredChecks today bs = .ok bs) ∧
    ((∃ b ∈ bs, ∃ c ∈ b.2, c.expired today = true) →
      ∃ bs', removeExpiredChecks today bs = .error (.runtimeErrorDequeMutated, bs')) ∧
    (∀ (dev : AccountHolderDevice) (draft : PromissoryNoteDraft),
      dev.unspent_checks = bs → draft.total_check_value = 0 →
      (∃ b ∈ bs, ∃ c ∈ b.2, c.expired today = true) →
      add_payment today dev draft = .error .runtimeErrorDequeMutated) := by
  refine ⟨removeExpired_ok_of_none today bs, removeExpired_err_of_some today bs, ?_⟩
  intro dev draft hdev h0 hex
  obtain ⟨bs', herr⟩ := removeExpired_err_of_some today bs hex
  rw [← hdev] at herr
  simp [add_payment, h0, herr]

/-- C10 witness: the theorem applied at a clean device and at a device holding
an expired check in its second bucket. -/
theorem C10_witness :
    removeExpiredChecks today0 [(5, [c5a, c5b])] = .ok [(5, [c5a, c5b])] ∧
    (∃ bs', removeExpiredChecks today0 [(5, [c5a]), (100, [cExp])] =
      .error (.runtimeErrorDequeMutated, bs')) :=
  ⟨(C10_remove_expired_checks today0 [(5, [c5a, c5b])]).1 (by decide),
   (C10_remove_expired_checks today0 [(5, [c5a]), (100, [cExp])]).2.1 (by decide)⟩

/-- Helper: balance-sum arithmetic of a heap write. -/
theorem heapSet_balance_sum (h : List (Nat × Account)) (aid : Nat) (a a' : Account)
    (hget : heapGet h aid = some a) :
    (((heapSet h aid a').map (·.2.balance)).sum : Int) =
      ((h.map (·.2.balance)).sum : Int) + a'.balance - a.balance := by
  induction h with
  | nil => simp [heapGet] at hget
  | cons hd tl ih =>
    obtain ⟨k, b⟩ := hd
    by_cases hk : k = aid
    · subst hk
      simp [heapGet] at hget
      subst hget
      simp [heapSet]
      ring
    · simp only [heapGet, if_neg hk] at hget
      simp [heapSet, hk, ih hget]
      ring

/-- Helper: a heap write is visible at its own id (when the id is present). -/
theorem heapGet_heapSet_self (h : List (Nat × Account)) (aid : Nat) (a a' : Account)
    (hget : heapGet h aid = some a) :
    heapGet (heapSet h aid a') aid = some a' := by
  induction h with
  | nil => simp [heapGet] at hget
  | cons hd tl ih =>
    obtain ⟨k, b⟩ := hd
    by_cases hk : k = aid
    · subst hk
      simp [heapSet, heapGet]
    · simp [heapGet, hk] at hget
      simp [heapSet, heapGet, hk, ih hget]

/-- Helper: a heap write leaves other ids untouched. -/
theorem heapGet_heapSet_ne (h : List (Nat × Account)) (aid aid' : Nat) (a' : Account)
    (hne : aid ≠ aid') :
    heapGet (heapSet h aid a') aid' = heapGet h aid' := by
  induction h with
  | nil => rfl
  | cons hd tl ih =>
    obtain ⟨k, b⟩ := hd
    by_cases hk : k = aid
    · subst hk
      simp [heapSet, heapGet, hne, ih]
    · simp [heapSet, heapGet, hk, ih]

/-- Helper: the withdraw/deposit pair moves `amount` from one account object
to another, leaving the heap-wide balance sum unchanged (also when buyer and
seller are the same object). -/
theorem claimTransfer_conserves (st1 : GState) (baid said : Nat) (amount : Nat)
    (ba sa : Account) (hb : heapGet st1.heap baid = some ba)
    (hs : heapGet st1.heap said = some sa) :
    totalBalance (exceptState (claimTransfer st1 baid said amount)) = totalBalance st1 := by
  unfold claimTransfer
  by_cases he : baid = said
  · subst he
    have h2 : heapGet (heapSet st1.heap baid (ba.withdraw amount)) baid =
        some (ba.withdraw amount) := heapGet_heapSet_self _ _ _ _ hb
    simp only [hb, h2]
    have e1 := heapSet_balance_sum st1.heap baid ba (ba.withdraw amount) hb
    have e2 := heapSet_balance_sum (heapSet st1.heap baid (ba.withdraw amount)) baid
      (ba.withdraw amount) ((ba.withdraw amount).deposit amount) h2
    simp only [totalBalance, exceptState]
    simp only [Account.withdraw, Account.deposit] at e1 e2 ⊢
    omega
  · have h2 : heapGet (heapSet st1.heap baid (ba.withdraw amount)) said =
        some sa := by rw [heapGet_heapSet_ne _ _ _ _ he]; exact hs
    simp only [hb, h2]
    have e1 := heapSet_balance_sum st1.heap baid ba (ba.withdraw amount) hb
    have e2 := heapSet_balance_sum (heapSet st1.heap baid (ba.withdraw amount)) said
      sa (sa.deposit amount) h2
    simp only [totalBalance, exceptState]
    simp only [Account.withdraw, Account.deposit] at e1 e2 ⊢
    omega

/-- Helper: `spend_check` rewrites only device data inside the buyer's
account; the heap-wide balance sum is unchanged. -/
theorem spendOnly_conserves (st : GState) (baid : Nat) (ba acct' : Account)
    (hbal : acct'.balance = ba.balance) (h2 : heapGet st.heap baid = some ba) :
    totalBalance (⟨st.banks, heapSet st.heap baid acct'⟩ : GState) = totalBalance st := by
  simp only [totalBalance]
  rw [heapSet_balance_sum st.heap baid ba acct' h2, hbal]
  omega

/-- Helper: the spend update followed by the withdraw/deposit pair leaves the
heap-wide balance sum unchanged. -/
theorem spendClaim_conserves (st : GState) (baid said : Nat) (amount : Nat)
    (ba acct' sa : Account) (hbal : acct'.balance = ba.balance)
    (h2 : heapGet st.heap baid = some ba) (h5 : heapGet st.heap said = some sa) :
    totalBalance (exceptState
      (claimTransfer (⟨st.banks, heapSet st.heap baid acct'⟩ : GState) baid said amount)) =
    totalBalance st := by
  have hb' : heapGet (heapSet st.heap baid acct') baid = some acct' :=
    heapGet_heapSet_self st.heap baid ba acct' h2
  by_cases he : baid = said
  · subst he
    rw [claimTransfer_conserves _ _ _ _ acct' acct' hb' hb']
    exact spendOnly_conserves st baid ba acct' hbal h2
  · have hs' : heapGet (heapSet st.heap baid acct') said = some sa := by
      rw [heapGet_heapSet_ne _ _ _ _ he]; exact h5
    rw [claimTransfer_conserves _ _ _ _ acct' sa hb' hs']
    exact spendOnly_conserves st baid ba acct' hbal h2

/-- Helper: one iteration of the redemption loop conserves the total balance,
on every control path (errors included). -/
theorem redeemStep_conserves (today : MyDate) (self : BankObj) (draft : PromissoryNoteDraft)
    (st : GState) (e : Check × Nat) :
    totalBalance (exceptState (redeemStep today self draft st e)) = totalBalance st := by
  obtain ⟨check, amount⟩ := e
  unfold redeemStep
  dsimp only
  cases h1 : lookupA self.ahd_to_account (pemExport check.owner_public_key) with
  | none => rfl
  | some buyerAid =>
  dsimp only
  cases h2 : heapGet st.heap buyerAid with
  | none => rfl
  | some buyerAccount =>
  dsimp only
  cases h3 : st.banks.find? (fun b => bankHasAccount b draft.seller_public_key) with
  | none => rfl
  | some sellerBank =>
  dsimp only
  cases h4 : lookupA sellerBank.ahd_to_account (pemExport draft.seller_public_key) with
  | none => rfl
  | some sellerAid =>
  dsimp only
  cases h5 : heapGet st.heap sellerAid with
  | none => rfl
  | some sellerAccount =>
  dsimp only
  cases h6 : buyerAccount.get_device check.owner_public_key with
  | none => rfl
  | some dd =>
  dsimp only
  by_cases hmem : check ∈ dd.unspent_checks
  · rw [if_pos hmem]
    dsimp only
    cases hcl : draft.is_claimable today with
    | false =>
      rw [if_neg (by simp [hcl])]
      exact spendOnly_conserves st buyerAid buyerAccount _ rfl h2
    | true =>
      rw [if_pos (by simp [hcl])]
      exact spendClaim_conserves st buyerAid sellerAid amount buyerAccount _ sellerAccount rfl h2 h5
  · rw [if_neg hmem]
    cases hcl : draft.is_claimable today with
    | true =>
      rw [if_neg (by simp [hcl])]
      rfl
    | false =>
      rw [if_pos (by simp [hcl])]
      dsimp only
      rw [if_neg (by simp [hcl])]
      rfl

/-- Helper: the whole redemption loop conserves the total balance. -/
theorem redeemLoop_conserves (today : MyDate) (self : BankObj)
    (draft : PromissoryNoteDraft) (st : GState) (l : List (Check × Nat)) :
    totalBalance (exceptState (redeemLoop today self draft st l)) = totalBalance st := by
  induction l generalizing st with
  | nil => rfl
  | cons e rest ih =>
    show totalBalance (exceptState (match redeemStep today self draft st e with
      | .error er => .error er
      | .ok st' => redeemLoop today self draft st' rest)) = totalBalance st
    cases h : redeemStep today self draft st e with
    | error er =>
      have := redeemStep_conserves today self draft st e
      rw [h] at this
      simpa using this
    | ok st' =>
      have := redeemStep_conserves today self draft st e
      rw [h] at this
      simp only [exceptState] at this
      simpa [this] using ih st'

/-- C8: redemption conserves money.  For every state, bank and note, the sum
of all account balances after `redeem_promissory_note` — whether it raises
or not, and over all participating banks, buyer and seller accounts
included — equals the sum before it: every `withdraw(amount)` from the
buyer's account is paired with a `deposit(amount)` into the seller's
account.  (This covers the claim's settled-note case and is stronger: the
source in fact always raises `TypeError` at the end, after the
transfers.) -/
theorem C8_redemption_conserves_money (today : MyDate) (st : GState) (self : BankObj)
    (note : PromissoryNote) :
    totalBalance (exceptState (redeem_promissory_note today st self note)) = totalBalance st := by
  unfold redeem_promissory_note
  cases note.is_buyer_signature_authentic with
  | none => rfl
  | some b =>
    cases b
    · rfl
    · cases note.is_seller_signature_authentic with
      | none => rfl
      | some b' =>
        cases b'
        · rfl
        · cases note.draft with
          | none => rfl
          | some draft =>
            dsimp only
            cases h : redeemLoop today self draft st
                (draft.checks.filter (fun c => c.1.bank_id == self.identifier)) with
            | error e =>
              have := redeemLoop_conserves today self draft st
                (draft.checks.filter (fun c => c.1.bank_id == self.identifier))
              rw [h] at this
              simpa using this
            | ok st' =>
              have := redeemLoop_conserves today self draft st
                (draft.checks.filter (fun c => c.1.bank_id == self.identifier))
              rw [h] at this
              simpa using this

/-- Helper: a list of naturals summing to zero is pointwise zero. -/
theorem natList_sum_zero {l : List Nat} (h : l.sum = 0) : ∀ x ∈ l, x = 0 := by
  induction l with
  | nil => intro x hx; cases hx
  | cons a tl ih =>
    intro x hx
    simp only [List.sum_cons] at h
    rcases List.mem_cons.mp hx with rfl | hx
    · omega
    · exact ih (by omega) x hx

/-- Helper: a draft with zero total annotated value has every entry within its
check's face value (each amount is zero). -/
theorem bounded_of_total_zero (d : PromissoryNoteDraft)
    (h : d.total_check_value = 0) : ∀ p ∈ d.checks, p.2 ≤ p.1.value := by
  intro p hp
  have hz : p.2 = 0 :=
    natList_sum_zero h _ (List.mem_map_of_mem (·.2) hp)
  omega

/-- Helper: `append_check` preserves the per-entry bound (its `assert` is the
bound for the new entry). -/
theorem append_check_bounded (d : PromissoryNoteDraft) (c : Check) (a : Nat)
    (d' : PromissoryNoteDraft) (h : d.append_check c a = some d')
    (hb : ∀ p ∈ d.checks, p.2 ≤ p.1.value) : ∀ p ∈ d'.checks, p.2 ≤ p.1.value := by
  unfold PromissoryNoteDraft.append_check at h
  split at h
  · cases h
    intro p hp
    rcases List.mem_append.mp hp with hp | hp
    · exact hb p hp
    · simp only [List.mem_singleton] at hp
      subst hp
      assumption
  · cases h

/-- Helper: the DP-path append loop preserves the per-entry bound. -/
theorem dpSelectLoop_bounded (l : List Nat) :
    ∀ (bs bs' : List (Nat × List Check)) (d d' : PromissoryNoteDraft) (r : Nat),
    dpSelectLoop l bs d r = .ok (bs', d') → (∀ p ∈ d.checks, p.2 ≤ p.1.value) →
    ∀ p ∈ d'.checks, p.2 ≤ p.1.value := by
  induction l with
  | nil =>
    intro bs bs' d d' r h hb
    cases h
    exact hb
  | cons v rest ih =>
    intro bs bs' d d' r h hb
    unfold dpSelectLoop at h
    cases hpop : bucketPopleft bs v with
    | none => rw [hpop] at h; cases h
    | some p =>
      rw [hpop] at h
      dsimp only at h
      cases happ : d.append_check p.1 (min r p.1.value) with
      | none => rw [happ] at h; cases h
      | some d1 =>
        rw [happ] at h
        exact ih _ _ _ _ _ h (append_check_bounded d p.1 _ d1 happ hb)

/-- Helper: the final append pass of the fallback path preserves the
per-entry bound (every entry passes the `assert amount <= check.value`). -/
theorem appendFold_bounded (l : List (Check × Nat)) :
    ∀ (d d' : PromissoryNoteDraft),
    l.foldlM (fun d p =>
      if p.2 ≤ p.1.value then
        match d.append_check p.1 p.2 with
        | none => Except.error DeviceError.assertionError
        | some d' => Except.ok d'
      else Except.error DeviceError.assertionError) d = .ok d' →
    (∀ p ∈ d.checks, p.2 ≤ p.1.value) → ∀ p ∈ d'.checks, p.2 ≤ p.1.value := by
  induction l with
  | nil =>
    intro d d' h hb
    cases h
    exact hb
  | cons p rest ih =>
    intro d d' h hb
    rw [List.foldlM_cons] at h
    by_cases hle : p.2 ≤ p.1.value
    · rw [if_pos hle] at h
      cases happ : d.append_check p.1 p.2 with
      | none => rw [happ] at h; cases h
      | some d1 =>
        rw [happ] at h
        simp only [Except.bind] at h
        exact ih _ _ h (append_check_bounded d p.1 p.2 d1 happ hb)
    · rw [if_neg hle] at h
      cases h

/-- Helper: `trimAndAppend` preserves the per-entry bound. -/
theorem trimAndAppend_bounded (value : Nat) (d : PromissoryNoteDraft)
    (l : List (Check × Nat)) (d' : PromissoryNoteDraft)
    (h : trimAndAppend value d l = .ok d')
    (hb : ∀ p ∈ d.checks, p.2 ≤ p.1.value) : ∀ p ∈ d'.checks, p.2 ≤ p.1.value := by
  unfold trimAndAppend at h
  dsimp only at h
  split at h
  · cases h
  · exact appendFold_bounded l d d' h hb

/-- Helper: the fallback selection path preserves the per-entry bound. -/
theorem fallbackSelect_bounded (value remaining : Nat)
    (buckets : List (Nat × List Check)) (d : PromissoryNoteDraft)
    (bs' : List (Nat × List Check)) (d' : PromissoryNoteDraft)
    (h : fallbackSelect value remaining buckets d = .ok (bs', d'))
    (hb : ∀ p ∈ d.checks, p.2 ≤ p.1.value) : ∀ p ∈ d'.checks, p.2 ≤ p.1.value := by
  unfold fallbackSelect at h
  split at h
  · cases h
  · dsimp only at h
    split at h
    · cases h
    · rename_i hw
      split at h
      · split at h
        · cases h
        · split at h
          · cases h
          · cases htr : trimAndAppend value d _ with
            | error e =>
              rw [htr] at h
              cases h
            | ok dd =>
              rw [htr] at h
              simp only [Except.map] at h
              cases h
              exact trimAndAppend_bounded _ _ _ _ htr hb
      · cases htr : trimAndAppend value d _ with
        | error e =>
          rw [htr] at h
          cases h
        | ok dd =>
          rw [htr] at h
          simp only [Except.map] at h
          cases h
          exact trimAndAppend_bounded _ _ _ _ htr hb

/-- C7: whenever `add_payment(draft)` returns normally, the draft satisfies
`draft.total_check_value == draft.value` (the source's final `assert`, and
the early-return `assert` for a zero-value draft), and every entry of the
resulting draft satisfies `amount <= check.value` — on the
dynamic-programming path, the fallback path and the zero-value path alike.
The entry precondition `draft.total_check_value == 0` holds on every normal
return (the source asserts it on entry). -/
theorem C7_add_payment_postcondition (today : MyDate) (dev : AccountHolderDevice)
    (draft : PromissoryNoteDraft) (dev' : AccountHolderDevice)
    (draft' : PromissoryNoteDraft)
    (h : add_payment today dev draft = .ok (dev', draft')) :
    draft'.total_check_value = draft'.value ∧ ∀ p ∈ draft'.checks, p.2 ≤ p.1.value := by
  unfold add_payment at h
  by_cases h0 : draft.total_check_value ≠ 0
  · rw [if_pos h0] at h; cases h
  rw [if_neg h0] at h
  push_neg at h0
  have hb : ∀ p ∈ draft.checks, p.2 ≤ p.1.value := bounded_of_total_zero draft h0
  cases hrem : removeExpiredChecks today dev.unspent_checks with
  | error e => rw [hrem] at h; cases h
  | ok buckets =>
  rw [hrem] at h
  dsimp only at h
  by_cases hins : totalBucketsValue buckets < draft.value
  · rw [if_pos hins] at h; cases h
  rw [if_neg hins] at h
  by_cases hz : draft.value = 0
  · rw [if_pos hz] at h
    by_cases hg : draft.total_check_value ≠ draft.value
    · rw [if_pos hg] at h; cases h
    · rw [if_neg hg] at h
      push_neg at hg
      cases h
      exact ⟨hg, hb⟩
  · rw [if_neg hz] at h
    split at h
    · -- DP path
      split at h
      · cases h
      · rename_i b2 d2 hsel
        by_cases hg : d2.total_check_value ≠ d2.value
        · rw [if_pos hg] at h; cases h
        · rw [if_neg hg] at h
          push_neg at hg
          cases h
          exact ⟨hg, dpSelectLoop_bounded _ _ _ _ _ _ hsel hb⟩
    · -- fallback path
      split at h
      · cases h
      · rename_i b2 d2 hsel
        by_cases hg : d2.total_check_value ≠ d2.value
        · rw [if_pos hg] at h; cases h
        · rw [if_neg hg] at h
          push_neg at hg
          cases h
          exact ⟨hg, fallbackSelect_bounded _ _ _ _ _ _ hsel hb⟩

/-- C7 witness: the postcondition theorem applied on the dynamic-programming
path (two checks of 5 cover a draft of 10) and on the fallback path (one
oversized check of 100 covers a draft of 10). -/
theorem C7_witness :
    (({ d10 with checks := [(c5a, 5), (c5b, 5)] } : PromissoryNoteDraft).total_check_value =
       ({ d10 with checks := [(c5a, 5), (c5b, 5)] } : PromissoryNoteDraft).value ∧
     ∀ p ∈ ({ d10 with checks := [(c5a, 5), (c5b, 5)] } : PromissoryNoteDraft).checks,
       p.2 ≤ p.1.value) ∧
    (({ d10 with checks := [(c100, 10)] } : PromissoryNoteDraft).total_check_value =
       ({ d10 with checks := [(c100, 10)] } : PromissoryNoteDraft).value ∧
     ∀ p ∈ ({ d10 with checks := [(c100, 10)] } : PromissoryNoteDraft).checks,
       p.2 ≤ p.1.value) :=
  ⟨C7_add_payment_postcondition today0 dev0 d10
      { dev0 with unspent_checks := [(5, [])] }
      { d10 with checks := [(c5a, 5), (c5b, 5)] } (by rfl),
   C7_add_payment_postcondition today0 devF d10
      { devF with unspent_checks := [(100, [])] }
      { d10 with checks := [(c100, 10)] } (by rfl)⟩

/-- Helper: 4-byte little-endian round trip. -/
theorem uint32_round (v : Nat) (b r : List Nat) (h : uint32_to_bytes v = some b) :
    uint32_from_bytes (b ++ r) = some (v, r) := by
  unfold uint32_to_bytes at h
  split at h
  · rename_i hv
    cases h
    show uint32_from_bytes
      (v % 256 :: (v / 256 % 256 :: (v / 65536 % 256 :: (v / 16777216 % 256 :: r)))) = some (v, r)
    unfold uint32_from_bytes
    dsimp only
    have : v % 256 + 256 * (v / 256 % 256) + 65536 * (v / 65536 % 256) +
        16777216 * (v / 16777216 % 256) = v := by omega
    rw [this]
  · cases h

/-- Helper: the `'<L'` 4-byte round trip of the source's u64 codec. -/
theorem uint64_round (v : Nat) (b r : List Nat) (h : uint64_to_bytes v = some b) :
    uint64_from_bytes (b ++ r) = some (v, r) := by
  unfold uint64_to_bytes at h
  split at h
  · rename_i hv
    cases h
    show uint64_from_bytes
      (v % 256 :: (v / 256 % 256 :: (v / 65536 % 256 :: (v / 16777216 % 256 :: r)))) = some (v, r)
    unfold uint64_from_bytes
    dsimp only
    have : v % 256 + 256 * (v / 256 % 256) + 65536 * (v / 65536 % 256) +
        16777216 * (v / 16777216 % 256) = v := by omega
    rw [this]
  · cases h

/-- Helper: length-prefixed byte strings round trip. -/
theorem bytestring_round (s b r : List Nat) (h : bytestring_to_bytes s = some b) :
    bytestring_from_bytes (b ++ r) = some (s, r) := by
  unfold bytestring_to_bytes at h
  cases hl : uint32_to_bytes s.length with
  | none => rw [hl] at h; cases h
  | some lb =>
    rw [hl] at h
    simp only [Option.map] at h
    cases h
    unfold bytestring_from_bytes
    rw [List.append_assoc, uint32_round _ _ _ hl]
    simp only [Option.map]
    rw [List.take_left, List.drop_left]

/-- Helper: PEM export/import of a key handle round trips. -/
theorem pem_round (k : Nat) : pemImport (pemExport k) = some k := by
  unfold pemImport pemExport
  rw [if_pos]
  · simp
  · simp [List.all_eq_true, List.mem_replicate]

/-- Helper: a digit byte decodes to its value. -/
theorem digitVal_of_le (x : Nat) (hx : x ≤ 9) : digitVal (48 + x) = some x := by
  unfold digitVal
  rw [if_pos (by omega)]
  congr 1
  omega

/-- Helper: no month is longer than 31 days. -/
theorem daysInMonth_le (y m : Nat) : daysInMonth y m ≤ 31 := by
  unfold daysInMonth
  repeat' split
  all_goals omega

/-- Helper: `strftime('%d%m%Y')` followed by `strptime` round trips every
valid date with a four-digit year. -/
theorem date_round (d : MyDate) (hv : d.valid = true) (hy : 1000 ≤ d.year) :
    parseDate (dateToBytes d) = some d := by
  have hv0 := hv
  obtain ⟨y, m, dd⟩ := d
  unfold MyDate.valid at hv
  simp only [Bool.and_eq_true, decide_eq_true_eq] at hv
  obtain ⟨⟨⟨⟨⟨h1, h2⟩, h3⟩, h4⟩, h5⟩, h6⟩ := hv
  have h7 : dd ≤ 31 := le_trans h6 (daysInMonth_le y m)
  simp only at hy
  unfold dateToBytes parseDate
  dsimp only
  rw [digitVal_of_le (dd / 10) (by omega), digitVal_of_le (dd % 10) (by omega),
      digitVal_of_le (m / 10) (by omega), digitVal_of_le (m % 10) (by omega),
      digitVal_of_le (y / 1000) (by omega), digitVal_of_le (y / 100 % 10) (by omega),
      digitVal_of_le (y / 10 % 10) (by omega), digitVal_of_le (y % 10) (by omega)]
  simp only [Option.bind_eq_bind, Option.some_bind]
  have ey : y / 1000 * 1000 + y / 100 % 10 * 100 + y / 10 % 10 * 10 + y % 10 = y := by omega
  have em : m / 10 * 10 + m % 10 = m := by omega
  have ed : dd / 10 * 10 + dd % 10 = dd := by omega
  rw [ey, em, ed]
  rw [if_pos hv0]

/-- Helper: `Check` encoding/decoding round trips (whenever encoding succeeds
and the expiration date is a valid four-digit-year date). -/
theorem check_round (c : Check) (b : List Nat) (h : Check.to_bytes c = some b)
    (hv : c.expiration_date.valid = true) (hy : 1000 ≤ c.expiration_date.year) :
    Check.from_bytes b = some c := by
  unfold Check.to_bytes Check.get_unsigned_bytes at h
  cases h1 : uint32_to_bytes c.bank_id with
  | none => rw [h1] at h; cases h
  | some b1 =>
  rw [h1] at h
  simp only [Option.bind_eq_bind, Option.some_bind] at h
  cases h2 : string_to_bytes (pemExport c.owner_public_key) with
  | none => rw [h2] at h; cases h
  | some b2 =>
  rw [h2] at h
  simp only [Option.some_bind] at h
  cases h3 : uint32_to_bytes c.value with
  | none => rw [h3] at h; cases h
  | some b3 =>
  rw [h3] at h
  simp only [Option.some_bind] at h
  cases h4 : uint64_to_bytes c.identifier with
  | none => rw [h4] at h; cases h
  | some b4 =>
  rw [h4] at h
  simp only [Option.some_bind] at h
  cases h5 : string_to_bytes (dateToBytes c.expiration_date) with
  | none => rw [h5] at h; cases h
  | some b5 =>
  rw [h5] at h
  simp only [Option.some_bind] at h
  cases h6 : bytestring_to_bytes c.signature with
  | none => rw [h6] at h; cases h
  | some b6 =>
  rw [h6] at h
  simp only [Option.some_bind] at h
  cases h
  unfold Check.from_bytes
  simp only [List.append_assoc]
  rw [uint32_round _ _ _ h1]
  simp only [Option.bind_eq_bind, Option.some_bind]
  unfold string_from_bytes
  rw [bytestring_round _ _ _ h2]
  simp only [Option.some_bind]
  rw [pem_round]
  simp only [Option.some_bind]
  rw [uint32_round _ _ _ h3]
  simp only [Option.some_bind]
  rw [uint64_round _ _ _ h4]
  simp only [Option.some_bind]
  rw [bytestring_round _ _ _ h5]
  simp only [Option.some_bind]
  rw [date_round c.expiration_date hv hy]
  simp only [Option.some_bind]
  rw [← List.append_nil b6, bytestring_round _ _ _ h6]
  simp only [Option.some_bind]

/-- Helper: the encoded entries list is at least as long (in bytes) as its
entry count, so the input length is sufficient decoding fuel. -/
theorem encodeDraftChecks_length (entries : List (Check × Nat)) :
    ∀ b : List Nat, encodeDraftChecks entries = some b → entries.length ≤ b.length := by
  induction entries with
  | nil => intro b h; cases h; simp
  | cons p rest ih =>
    intro b h
    obtain ⟨c, amount⟩ := p
    unfold encodeDraftChecks at h
    cases hc : c.to_bytes with
    | none => rw [hc] at h; cases h
    | some cb =>
    rw [hc] at h
    simp only [Option.bind_eq_bind, Option.some_bind] at h
    cases hc' : bytestring_to_bytes cb with
    | none => rw [hc'] at h; cases h
    | some cb' =>
    rw [hc'] at h
    simp only [Option.some_bind] at h
    cases ha : uint32_to_bytes amount with
    | none => rw [ha] at h; cases h
    | some ab =>
    rw [ha] at h
    simp only [Option.some_bind] at h
    cases hr : encodeDraftChecks rest with
    | none => rw [hr] at h; cases h
    | some rb =>
    rw [hr] at h
    simp only [Option.some_bind] at h
    cases h
    have hlen : 4 = ab.length := by
      unfold uint32_to_bytes at ha
      split at ha
      · cases ha; rfl
      · cases ha
    have := ih rb hr
    simp only [List.length_append, List.length_cons]
    omega

/-- Helper: the draft's check-entry list round trips through the
`while draft_bytes:` loop, given enough fuel. -/
theorem draftChecks_round (entries : List (Check × Nat)) :
    ∀ (b : List Nat) (fuel : Nat), encodeDraftChecks entries = some b →
    entries.length ≤ fuel →
    (∀ p ∈ entries, p.1.expiration_date.valid = true ∧ 1000 ≤ p.1.expiration_date.year) →
    parseDraftChecks fuel b = some entries := by
  induction entries with
  | nil =>
    intro b fuel h _ _
    cases h
    cases fuel <;> rfl
  | cons p rest ih =>
    intro b fuel h hfuel hdates
    obtain ⟨c, amount⟩ := p
    unfold encodeDraftChecks at h
    cases hc : c.to_bytes with
    | none => rw [hc] at h; cases h
    | some cb =>
    rw [hc] at h
    simp only [Option.bind_eq_bind, Option.some_bind] at h
    cases hc' : bytestring_to_bytes cb with
    | none => rw [hc'] at h; cases h
    | some cb' =>
    rw [hc'] at h
    simp only [Option.some_bind] at h
    cases ha : uint32_to_bytes amount with
    | none => rw [ha] at h; cases h
    | some ab =>
    rw [ha] at h
    simp only [Option.some_bind] at h
    cases hr : encodeDraftChecks rest with
    | none => rw [hr] at h; cases h
    | some rb =>
    rw [hr] at h
    simp only [Option.some_bind] at h
    cases h
    -- the encoded head entry is nonempty: its length prefix is 4 bytes
    have hcb' : ∃ x xs, cb' = x :: xs := by
      unfold bytestring_to_bytes uint32_to_bytes at hc'
      split at hc'
      · simp only [Option.map] at hc'
        cases hc'
        exact ⟨_, _, rfl⟩
      · cases hc'
    obtain ⟨x, xs, rfl⟩ := hcb'
    cases fuel with
    | zero => simp at hfuel
    | succ f =>
      simp only [List.append_assoc, List.cons_append]
      simp only [parseDraftChecks]
      simp only [Option.bind_eq_bind, List.append_eq, List.append_assoc]
      rw [← List.cons_append]
      rw [bytestring_round _ _ _ hc']
      simp only [Option.some_bind]
      rw [uint32_round _ _ _ ha]
      simp only [Option.some_bind]
      rw [check_round c cb hc (hdates (c, amount) (by simp)).1 (hdates (c, amount) (by simp)).2]
      simp only [Option.some_bind]
      rw [ih rb f hr (by simpa using hfuel) (fun q hq => hdates q (by simp [hq]))]
      rfl

/-- Helper: `PromissoryNoteDraft` encoding/decoding round trips (whenever
encoding succeeds and all embedded dates are valid four-digit-year
dates). -/
theorem draft_round (d : PromissoryNoteDraft) (b : List Nat)
    (h : d.to_bytes = some b)
    (hv : d.transaction_date.valid = true) (hy : 1000 ≤ d.transaction_date.year)
    (hdates : ∀ p ∈ d.checks,
      p.1.expiration_date.valid = true ∧ 1000 ≤ p.1.expiration_date.year) :
    PromissoryNoteDraft.from_bytes b = some d := by
  unfold PromissoryNoteDraft.to_bytes at h
  cases h1 : string_to_bytes (pemExport d.seller_public_key) with
  | none => rw [h1] at h; cases h
  | some b1 =>
  rw [h1] at h
  simp only [Option.bind_eq_bind, Option.some_bind] at h
  cases h2 : uint64_to_bytes d.identifier with
  | none => rw [h2] at h; cases h
  | some b2 =>
  rw [h2] at h
  simp only [Option.some_bind] at h
  cases h3 : uint32_to_bytes d.value with
  | none => rw [h3] at h; cases h
  | some b3 =>
  rw [h3] at h
  simp only [Option.some_bind] at h
  cases h4 : string_to_bytes (dateToBytes d.transaction_date) with
  | none => rw [h4] at h; cases h
  | some b4 =>
  rw [h4] at h
  simp only [Option.some_bind] at h
  cases h5 : encodeDraftChecks d.checks with
  | none => rw [h5] at h; cases h
  | some b5 =>
  rw [h5] at h
  simp only [Option.some_bind] at h
  cases h
  unfold PromissoryNoteDraft.from_bytes
  simp only [List.append_assoc]
  unfold string_from_bytes
  rw [bytestring_round _ _ _ h1]
  simp only [Option.bind_eq_bind, Option.some_bind]
  rw [pem_round]
  simp only [Option.some_bind]
  rw [uint64_round _ _ _ h2]
  simp only [Option.some_bind]
  rw [uint32_round _ _ _ h3]
  simp only [Option.some_bind]
  rw [bytestring_round _ _ _ h4]
  simp only [Option.some_bind]
  rw [date_round _ hv hy]
  simp only [Option.some_bind]
  rw [draftChecks_round d.checks b5 b5.length h5 (encodeDraftChecks_length _ _ h5) hdates]
  rfl

/-- Helper: `PromissoryNote` encoding/decoding round trips whenever encoding
succeeds (three length-prefixed byte strings). -/
theorem note_round (n : PromissoryNote) (b : List Nat) (h : n.to_bytes = some b) :
    PromissoryNote.from_bytes b = some n := by
  unfold PromissoryNote.to_bytes at h
  cases h1 : bytestring_to_bytes n.draft_bytes with
  | none => rw [h1] at h; cases h
  | some b1 =>
  rw [h1] at h
  simp only [Option.bind_eq_bind, Option.some_bind] at h
  cases h2 : bytestring_to_bytes n.seller_signature with
  | none => rw [h2] at h; cases h
  | some b2 =>
  rw [h2] at h
  simp only [Option.some_bind] at h
  cases h3 : bytestring_to_bytes n.buyer_signature with
  | none => rw [h3] at h; cases h
  | some b3 =>
  rw [h3] at h
  simp only [Option.some_bind] at h
  cases h
  unfold PromissoryNote.from_bytes
  simp only [List.append_assoc]
  rw [bytestring_round _ _ _ h1]
  simp only [Option.bind_eq_bind, Option.some_bind]
  rw [bytestring_round _ _ _ h2]
  simp only [Option.some_bind]
  rw [← List.append_nil b3, bytestring_round _ _ _ h3]
  simp only [Option.some_bind]

/-- C9 counterexample: the claim asserts the round trip for every well-formed
value.  This check is well formed for the spec's data model (u32 fields in
range, valid date, identifier within u64), yet `to_bytes` raises
(`struct.error` from the 4-byte `'<L'` format), so `from_bytes(to_bytes x)`
is not `x` — encoding does not even produce bytes. -/
theorem C9_counterexample_u64_field :
    cBig.bank_id < 4294967296 ∧ cBig.value < 4294967296 ∧
    cBig.identifier < 18446744073709551616 ∧ cBig.expiration_date.valid = true ∧
    Check.to_bytes cBig = none := by
  refine ⟨by decide, by decide, by decide, by decide, rfl⟩

/-- C9 (amended): the codec round trip holds exactly on the domain where
encoding succeeds — all integer fields below `2^32` (the source's `'<L'`
format caps the u64 fields at 32 bits) and dates valid with four-digit
years: then `from_bytes (to_bytes x) = x` for checks, drafts and notes, and
consequently `to_bytes (from_bytes b) = b` for every byte string `b`
produced by a prior `to_bytes`. -/
theorem C9_roundtrip_on_encodable_values :
    (∀ (c : Check) (b : List Nat), Check.to_bytes c = some b →
      c.expiration_date.valid = true → 1000 ≤ c.expiration_date.year →
      Check.from_bytes b = some c ∧ (Check.from_bytes b).bind Check.to_bytes = some b) ∧
    (∀ (d : PromissoryNoteDraft) (b : List Nat), d.to_bytes = some b →
      d.transaction_date.valid = true → 1000 ≤ d.transaction_date.year →
      (∀ p ∈ d.checks,
        p.1.expiration_date.valid = true ∧ 1000 ≤ p.1.expiration_date.year) →
      PromissoryNoteDraft.from_bytes b = some d ∧
        (PromissoryNoteDraft.from_bytes b).bind PromissoryNoteDraft.to_bytes = some b) ∧
    (∀ (n : PromissoryNote) (b : List Nat), n.to_bytes = some b →
      PromissoryNote.from_bytes b = some n ∧
        (PromissoryNote.from_bytes b).bind PromissoryNote.to_bytes = some b) := by
  refine ⟨?_, ?_, ?_⟩
  · intro c b h hv hy
    have h1 := check_round c b h hv hy
    exact ⟨h1, by rw [h1]; simpa using h⟩
  · intro d b h hv hy hdates
    have h1 := draft_round d b h hv hy hdates
    exact ⟨h1, by rw [h1]; simpa using h⟩
  · intro n b h
    have h1 := note_round n b h
    exact ⟨h1, by rw [h1]; simpa using h⟩

/-- C9 witness: the round trip evaluated at a concrete check, draft and fully
signed note. -/
theorem C9_witness :
    Check.from_bytes ((Check.to_bytes c5a).getD []) = some c5a ∧
    PromissoryNoteDraft.from_bytes ((dC.to_bytes).getD []) = some dC ∧
    PromissoryNote.from_bytes ((note0.to_bytes).getD []) = some note0 :=
  ⟨(C9_roundtrip_on_encodable_values.1 c5a ((Check.to_bytes c5a).getD [])
      (by rfl) (by decide) (by decide)).1,
   (C9_roundtrip_on_encodable_values.2.1 dC ((dC.to_bytes).getD [])
      (by rfl) (by decide) (by decide) (by decide)).1,
   (C9_roundtrip_on_encodable_values.2.2 note0 ((note0.to_bytes).getD [])
      (by rfl)).1⟩
